import Mathlib

/-!
Verification of the HLS stream-check engine (hls_exporter).

This file shallowly embeds the core of the stream-check engine:

* pkg/models/types.go           — the data model (result/error structures),
* internal/checker/segment_validator.go — basic and media segment validation,
* internal/checker/validator.go — playlist validation and segment selection,
* internal/checker/checker.go   — the Check orchestration (master playlist,
  variant fan-out, segment checks, aggregation) and the Stop/Start lifecycle,
* internal/http/client.go       — GetPlaylist status handling.

Modelling conventions:
* Go machine integers become Int/Nat (no claim exercises overflow);
  float64 durations become ℚ (the code only compares them with 0);
  time.Duration values become Int nanoseconds; wall-clock timestamps and
  metrics emission are omitted — no claim mentions them.
* Fallible Go functions return Option/Except.  The external collaborators
  (HTTP transport outcomes, URL resolution, the PRNG draw stream) are passed
  in as explicit environment values, so the checker code itself is embedded
  verbatim while its effects become pure inputs.
* The m3u8 parser is an external collaborator: playlist bodies are modelled
  by their parse outcome (master / media / malformed), mirroring the
  listType dispatch in parseMasterPlaylist / parseMediaPlaylist.
* Goroutine fan-out in checkVariants is modelled by the canonical
  (program-order) interleaving: every spawned segment task deposits exactly
  one SegmentCheck in the result channel, so the collected list is a
  permutation of the canonical one; all aggregate quantities proved here
  (counts, lengths) are permutation-invariant.
* A concurrent rejection-sampling loop that can spin forever is modelled
  with fuel; the value none models divergence of the whole invocation.
-/

namespace HLSExporter

/-! ## Data model (pkg/models/types.go) -/

/-- models.ValidationType — fine-grained validation taxonomy. -/
inductive ValidationType where
  | segmentSize
  | segmentStatus
  | containerType
  | noVideo
  | noAudio
  | corruptedMedia
deriving DecidableEq, Repr

/-- models.ValidationError (Type + Message; Details is never set by the checker). -/
structure ValidationError where
  vtype : ValidationType
  message : String
deriving DecidableEq, Repr

/-- models.ErrorType — top-level error taxonomy. -/
inductive ErrorType where
  | playlistDownload
  | playlistParse
  | segmentDownload
  | segmentValidate
  | mediaContainer
deriving DecidableEq, Repr

/-- models.CheckError (Type + Message; StatusCode/Retryable never set by the checker). -/
structure CheckError where
  etype : ErrorType
  message : String
deriving DecidableEq, Repr

/-- models.MediaInfo. -/
structure MediaInfo where
  container : String
  bitrate : Int
  hasVideo : Bool
  hasAudio : Bool
  isComplete : Bool
deriving DecidableEq, Repr

/-- models.SegmentData — validation input (transport headers omitted: never read). -/
structure SegmentData where
  uri : String
  duration : ℚ
  size : Int
  mediaInfo : MediaInfo
deriving DecidableEq, Repr

/-- models.MediaValidation — content-validation policy. -/
structure MediaValidation where
  containerType : List String
  minSegmentSize : Int
  checkAudio : Bool
  checkVideo : Bool
deriving DecidableEq, Repr

/-- models.StreamConfig (poll interval and timeout omitted: real time is not modelled). -/
structure StreamConfig where
  name : String
  url : String
  checkMode : String
  validateContent : Bool
  mediaValidation : Option MediaValidation
deriving DecidableEq, Repr

/-- models.SegmentCheck — terminal per-segment outcome. -/
structure SegmentCheck where
  url : String
  success : Bool
  duration : Int
  error : Option CheckError
deriving DecidableEq, Repr

/-- models.SegmentResults.  The Total field is the one the concurrent
checkVariants accumulates (results.Total += len(segments)); the snapshot of
types.go predates it but checker.go reads and writes it. -/
structure SegmentResults where
  checked : Nat
  total : Nat
  failed : Nat
  details : List SegmentCheck
deriving DecidableEq, Repr

/-- models.StreamStatus (LastModified kept as the raw header value; the
RFC1123 parse is a wall-clock concern no claim touches). -/
structure StreamStatus where
  isLive : Bool
  variantsCount : Nat
  segmentsCount : Nat
  lastModifiedHeader : String
deriving DecidableEq, Repr

/-- models.CheckResult (Duration/Timestamp omitted: real time is not modelled). -/
structure CheckResult where
  success : Bool
  streamName : String
  streamStatus : StreamStatus
  segments : SegmentResults
  error : Option CheckError
deriving DecidableEq, Repr

/-- models.CheckModeAll. -/
def CheckModeAll : String := "all"

/-- models.CheckModeFirstLast. -/
def CheckModeFirstLast : String := "first_last"

/-- models.CheckModeRandom. -/
def CheckModeRandom : String := "random"

/-! ## Parsed playlist structures (github.com/grafov/m3u8, as consumed by the checker)

The checker dereferences master variants without nil checks in ValidateMaster,
and the decoder produces non-nil variant entries, so variants are plain values;
media playlists keep the library's backing-array shape: a tracked segment count
plus a slot list in which unused slots are nil (the checker guards every slot
access with a nil check, and those guards are load-bearing for the claims). -/

/-- m3u8.MediaSegment — the fields the checker reads. -/
structure MediaSegment where
  uri : String
  duration : ℚ
  seqId : Nat
deriving DecidableEq, Repr

/-- m3u8.MediaPlaylist: count is Count(), segments is the Segments backing slice. -/
structure MediaPlaylist where
  count : Nat
  segments : List (Option MediaSegment)
deriving DecidableEq, Repr

/-- m3u8.Variant — the field the checker reads. -/
structure Variant where
  uri : String
deriving DecidableEq, Repr

/-- m3u8.MasterPlaylist. -/
structure MasterPlaylist where
  variants : List Variant
deriving DecidableEq, Repr

/-- playlist.Segments[i], with out-of-range reads modelled as nil (the code
only indexes below Count(), which the library keeps within the slice). -/
def segAt (p : MediaPlaylist) (i : Nat) : Option MediaSegment :=
  p.segments.getD i none

/-! ## Segment validator (internal/checker/segment_validator.go) -/

namespace BasicSegmentValidator

/-- BasicSegmentValidator.ValidateBasic: empty segment, then non-positive duration. -/
def ValidateBasic (segment : SegmentData) : Option ValidationError :=
  if segment.size = 0 then
    some { vtype := ValidationType.segmentSize, message := "empty segment" }
  else if segment.duration ≤ 0 then
    some { vtype := ValidationType.segmentSize, message := "invalid segment duration" }
  else
    none

/-- BasicSegmentValidator.ValidateMedia: container allow-list, minimum size,
then required video/audio tracks, in that order, first failure wins. -/
def ValidateMedia (segment : SegmentData) (validation : MediaValidation) :
    Option ValidationError :=
  if ¬ validation.containerType.contains segment.mediaInfo.container then
    some { vtype := ValidationType.containerType,
           message := "invalid container type: " ++ segment.mediaInfo.container }
  else if segment.size < validation.minSegmentSize then
    some { vtype := ValidationType.segmentSize,
           message := "segment size " ++ toString segment.size ++
             " less than minimum " ++ toString validation.minSegmentSize }
  else if validation.checkVideo ∧ ¬ segment.mediaInfo.hasVideo then
    some { vtype := ValidationType.noVideo, message := "no video track found" }
  else if validation.checkAudio ∧ ¬ segment.mediaInfo.hasAudio then
    some { vtype := ValidationType.noAudio, message := "no audio track found" }
  else
    none

end BasicSegmentValidator

/-- ValidationError.Error(): "type: message". -/
def ValidationType.tag : ValidationType → String
  | ValidationType.segmentSize => "segment_size"
  | ValidationType.segmentStatus => "segment_status"
  | ValidationType.containerType => "container_type"
  | ValidationType.noVideo => "no_video"
  | ValidationType.noAudio => "no_audio"
  | ValidationType.corruptedMedia => "corrupted_media"

/-- ValidationError.Error() string rendering. -/
def ValidationError.render (e : ValidationError) : String :=
  e.vtype.tag ++ ": " ++ e.message

/-! ## Playlist validator (internal/checker/validator.go) -/

namespace HLSValidator

/-- HLSValidator.ValidateSegment: basic validation always, media validation
only when a policy is supplied. -/
def ValidateSegment (segment : SegmentData) (validation : Option MediaValidation) :
    Option ValidationError :=
  match BasicSegmentValidator.ValidateBasic segment with
  | some e => some e
  | none =>
    match validation with
    | some v => BasicSegmentValidator.ValidateMedia segment v
    | none => none

/-- HLSValidator.ValidateMaster: nil playlist, zero variants, blank variant URI. -/
def ValidateMaster (playlist : Option MasterPlaylist) : Option String :=
  match playlist with
  | none => some "empty master playlist"
  | some p =>
    if p.variants.length = 0 then
      some "no variants in master playlist"
    else
      match p.variants.findIdx? (fun v => v.uri = "") with
      | some i => some ("empty URI in variant " ++ toString i)
      | none => none

/-- The sequence scan inside ValidateMedia: prevSeq starts at 0, nil slots are
skipped, a strictly decreasing step fails. -/
def scanSeq (prevSeq : Nat) : List (Option MediaSegment) → Option String
  | [] => none
  | none :: rest => scanSeq prevSeq rest
  | some seg :: rest =>
    if seg.seqId < prevSeq then some "invalid segment sequence"
    else scanSeq seg.seqId rest

/-- HLSValidator.ValidateMedia (playlist form): nil playlist, zero segments,
then the sequence scan. -/
def ValidateMedia (playlist : Option MediaPlaylist) : Option String :=
  match playlist with
  | none => some "empty media playlist"
  | some p =>
    if p.count = 0 then some "no segments in media playlist"
    else scanSeq 0 p.segments

end HLSValidator

/-! ## Segment selector (internal/checker/validator.go, selectSegments) -/

/-- The min helper defined at the bottom of validator.go. -/
def goMin (a b : Nat) : Nat :=
  if a < b then a else b

/-- The first_last arm: Segments[0] and Segments[Count()-1]; the Go code
compares the two slot pointers (last != first), which for the library's
backing array is exactly a comparison of the two indices, i.e. Count()-1 = 0
means the single segment is returned once. -/
def firstLastSegments (p : MediaPlaylist) : List MediaSegment :=
  (match segAt p 0 with
   | some s => [s]
   | none => []) ++
  (match segAt p (p.count - 1) with
   | some s => if p.count - 1 = 0 then [] else [s]
   | none => [])

/-- The random-mode rejection loop: while len(segments) < target, draw an
index; if it is unseen and the slot is non-nil, keep it, otherwise redraw.
draws k is the k-th output of the rand.Intn stream; fuel bounds the number of
iterations, none modelling divergence of the loop. -/
def randomLoop (draws : Nat → Nat) (p : MediaPlaylist) (target : Nat)
    (fuel : Nat) (segments : List MediaSegment) (seen : List Nat) (k : Nat) :
    Option (List MediaSegment) :=
  if target ≤ segments.length then some segments
  else
    match fuel with
    | 0 => none
    | Nat.succ fuel2 =>
      match (if draws k ∈ seen then none else segAt p (draws k)) with
      | some seg =>
        randomLoop draws p target fuel2 (segments ++ [seg]) (seen ++ [draws k]) (k + 1)
      | none => randomLoop draws p target fuel2 segments seen (k + 1)

/-- StreamChecker.selectSegments.  In the source the random arm builds its
draw stream as rand.New(rand.NewSource(time.Now().UnixNano())).Intn(count) —
a math/rand PRNG freshly seeded from the wall clock; that stream enters here
as the explicit argument draws. -/
def selectSegments (draws : Nat → Nat) (fuel : Nat) (playlist : MediaPlaylist)
    (mode : String) : Option (List MediaSegment) :=
  if mode = CheckModeAll then
    some (playlist.segments.filterMap id)
  else if mode = CheckModeFirstLast then
    some (if 0 < playlist.count then firstLastSegments playlist else [])
  else if mode = CheckModeRandom then
    if 0 < playlist.count then
      randomLoop draws playlist (goMin 3 playlist.count) fuel [] [] 0
    else some []
  else
    some []

/-! ## HTTP client (internal/http/client.go) -/

/-- Playlist bodies are modelled by their m3u8 parse outcome; this mirrors
the listType dispatch of m3u8.DecodeFrom as consumed by the checker. -/
inductive ParsedBody where
  | master (m : MasterPlaylist)
  | media (m : MediaPlaylist)
  | malformed (msg : String)
deriving DecidableEq, Repr

/-- What one HTTP round trip for a playlist produced: either a transport
error from httpClient.Do, or a status code with body and headers. -/
inductive FetchOutcome where
  | netError (msg : String)
  | response (statusCode : Nat) (body : ParsedBody) (headers : List (String × String))
deriving DecidableEq, Repr

/-- models.PlaylistResponse (Duration omitted: never read by the checker). -/
structure PlaylistResponse where
  body : ParsedBody
  statusCode : Nat
  headers : List (String × String)
deriving DecidableEq, Repr

/-- models.SegmentResponse. -/
structure SegmentResponse where
  mediaInfo : MediaInfo
  statusCode : Nat
  size : Int
  duration : Int
deriving DecidableEq, Repr

/-- Client.GetPlaylist: a transport error propagates; a status other than
200 is turned into an error; otherwise the body is returned. -/
def GetPlaylist (outcome : FetchOutcome) : Except String PlaylistResponse :=
  match outcome with
  | FetchOutcome.netError m => Except.error ("do request: " ++ m)
  | FetchOutcome.response sc body hdrs =>
    if sc = 200 then Except.ok { body := body, statusCode := sc, headers := hdrs }
    else Except.error ("unexpected status code: " ++ toString sc)

/-- http.Header.Get: the header value, "" when absent. -/
def headerGet (hdrs : List (String × String)) (key : String) : String :=
  match hdrs.lookup key with
  | some v => v
  | none => ""

/-! ## Stream check engine (internal/checker/checker.go) -/

/-- The engine's environment: the external collaborators of one Check
invocation, made explicit.  playlistAt gives the transport outcome of the GET
for each playlist URL; segmentAt gives the GetSegment result per segment URL
and validate flag; resolve is net/url reference resolution; draws is the
per-variant seeded math/rand stream feeding selectSegments, and fuel bounds
its rejection loop. -/
structure CheckEnv where
  playlistAt : String → FetchOutcome
  segmentAt : String → Bool → Except String SegmentResponse
  resolve : String → String → String
  draws : String → Nat → Nat
  fuel : Nat

/-- parseMasterPlaylist: decode then require listType MASTER. -/
def parseMasterPlaylist (body : ParsedBody) : Except String MasterPlaylist :=
  match body with
  | ParsedBody.master m => Except.ok m
  | ParsedBody.media _ => Except.error "expected master playlist, got media"
  | ParsedBody.malformed msg => Except.error msg

/-- parseMediaPlaylist: decode then require listType MEDIA. -/
def parseMediaPlaylist (body : ParsedBody) : Except String MediaPlaylist :=
  match body with
  | ParsedBody.media m => Except.ok m
  | ParsedBody.master _ => Except.error "expected media playlist, got master"
  | ParsedBody.malformed msg => Except.error msg

/-- StreamChecker.checkSegment: download (with the content-validation flag),
succeed immediately when content validation is disabled, otherwise run the
validator over the assembled SegmentData. -/
def checkSegment (env : CheckEnv) (segment : MediaSegment) (cfg : StreamConfig) :
    SegmentCheck :=
  match env.segmentAt segment.uri cfg.validateContent with
  | Except.error msg =>
    { url := segment.uri, success := false, duration := 0,
      error := some { etype := ErrorType.segmentDownload, message := msg } }
  | Except.ok resp =>
    if ¬ cfg.validateContent then
      { url := segment.uri, success := true, duration := resp.duration, error := none }
    else
      let segData : SegmentData :=
        { uri := segment.uri, duration := segment.duration,
          size := resp.size, mediaInfo := resp.mediaInfo }
      match HLSValidator.ValidateSegment segData cfg.mediaValidation with
      | some e =>
        { url := segment.uri, success := false, duration := 0,
          error := some { etype := ErrorType.segmentValidate, message := e.render } }
      | none =>
        { url := segment.uri, success := true, duration := resp.duration, error := none }

/-- One variant goroutine of the concurrent checkVariants: fetch, parse and
validate the variant playlist (a failure is logged and contributes nothing),
resolve segment URIs, select segments, and spawn one segment check per
selected segment.  Besides the checks it reports the variant's contribution
to results.Total (len(segments)); none models a diverging selection loop,
which would leave the WaitGroup forever unfinished. -/
def variantChecks (env : CheckEnv) (cfg : StreamConfig) (variant : Variant) :
    Option (Nat × List SegmentCheck) :=
  let variantURL := env.resolve cfg.url variant.uri
  match GetPlaylist (env.playlistAt variantURL) with
  | Except.error _ => some (0, [])
  | Except.ok resp =>
    match parseMediaPlaylist resp.body with
    | Except.error _ => some (0, [])
    | Except.ok mediaPlaylist =>
      match HLSValidator.ValidateMedia (some mediaPlaylist) with
      | some _ => some (0, [])
      | none =>
        let resolved : MediaPlaylist :=
          { mediaPlaylist with
            segments := mediaPlaylist.segments.map
              (Option.map fun s => { s with uri := env.resolve variantURL s.uri }) }
        match selectSegments (env.draws variantURL) env.fuel resolved cfg.checkMode with
        | none => none
        | some segs => some (segs.length, segs.map (fun s => checkSegment env s cfg))

/-- The fan-out over master.Variants, in program order. -/
def variantsFold (env : CheckEnv) (cfg : StreamConfig) :
    List Variant → Option (List (Nat × List SegmentCheck))
  | [] => some []
  | v :: rest =>
    match variantChecks env cfg v with
    | none => none
    | some pr =>
      match variantsFold env cfg rest with
      | none => none
      | some prs => some (pr :: prs)

/-- The collection loop at the bottom of checkVariants: one received
SegmentCheck increments Checked, is appended to Details, and increments
Failed when unsuccessful. -/
def collectLoop (acc : SegmentResults) : List SegmentCheck → SegmentResults
  | [] => acc
  | c :: rest =>
    collectLoop
      { acc with
        checked := acc.checked + 1,
        details := acc.details ++ [c],
        failed := if c.success then acc.failed else acc.failed + 1 }
      rest

/-- StreamChecker.checkVariants (the concurrent version): fan out over
variants, then drain the result channel.  Total is the sum of the per-variant
len(segments) contributions; the drained checks are the concatenation of the
per-variant segment-check lists (one deposit per spawned task). -/
def checkVariants (env : CheckEnv) (master : MasterPlaylist) (cfg : StreamConfig) :
    Option SegmentResults :=
  match variantsFold env cfg master.variants with
  | none => none
  | some pairs =>
    let total := (pairs.map Prod.fst).sum
    some (collectLoop
      { checked := 0, total := total, failed := 0, details := [] }
      (pairs.map Prod.snd).flatten)

/-- StreamChecker.checkMasterPlaylist: fetch (PlaylistDownload on failure),
parse (PlaylistParse), ValidateMaster (PlaylistParse). -/
def checkMasterPlaylist (env : CheckEnv) (url : String) :
    Except (ErrorType × String) (MasterPlaylist × List (String × String)) :=
  match GetPlaylist (env.playlistAt url) with
  | Except.error msg => Except.error (ErrorType.playlistDownload, msg)
  | Except.ok resp =>
    match parseMasterPlaylist resp.body with
    | Except.error msg => Except.error (ErrorType.playlistParse, msg)
    | Except.ok master =>
      match HLSValidator.ValidateMaster (some master) with
      | some msg => Except.error (ErrorType.playlistParse, msg)
      | none => Except.ok (master, resp.headers)

/-- The zero value of SegmentResults, as carried by a CheckResult whose
variant stage never ran. -/
def zeroSegmentResults : SegmentResults :=
  { checked := 0, total := 0, failed := 0, details := [] }

/-- The zero value of StreamStatus. -/
def zeroStreamStatus : StreamStatus :=
  { isLive := false, variantsCount := 0, segmentsCount := 0, lastModifiedHeader := "" }

/-- StreamChecker.updateResultStatus. -/
def updateResultStatus (cfg : StreamConfig) (master : MasterPlaylist)
    (hdrs : List (String × String)) (segResults : SegmentResults) : CheckResult :=
  { success := false,
    streamName := cfg.name,
    streamStatus :=
      { isLive := true,
        variantsCount := master.variants.length,
        segmentsCount := segResults.checked,
        lastModifiedHeader := headerGet hdrs "Last-Modified" },
    segments := segResults,
    error := none }

/-- StreamChecker.Check.  Returns the CheckResult together with the Go error
return value (some = non-nil); none models an invocation that never returns
because a variant's selection loop diverged. -/
def Check (env : CheckEnv) (cfg : StreamConfig) :
    Option (CheckResult × Option String) :=
  match checkMasterPlaylist env cfg.url with
  | Except.error (et, msg) =>
    some ({ success := false, streamName := cfg.name,
            streamStatus := zeroStreamStatus, segments := zeroSegmentResults,
            error := some { etype := et, message := msg } },
          some msg)
  | Except.ok (master, hdrs) =>
    match checkVariants env master cfg with
    | none => none
    | some segResults =>
      let result := updateResultStatus cfg master hdrs segResults
      if 0 < segResults.failed then
        let errMsg := toString segResults.failed ++ " of " ++
          toString segResults.total ++ " segments failed validation"
        some ({ result with
                success := false,
                error := some { etype := ErrorType.segmentValidate, message := errMsg } },
              some ("segment validation failed: " ++ errMsg))
      else
        some ({ result with success := true }, none)

/-! ## Lifecycle harness (Start / Stop / worker in checker.go)

The shared state is the stopCh channel (open or closed) and the number of
worker goroutines that have been launched and have not yet returned.  Calls
are modelled sequentially, as in the contract (Stop must be safe to call
more than once). -/

/-- The lifecycle-relevant state of a StreamChecker. -/
structure StreamCheckerState where
  stopClosed : Bool
  runningWorkers : Nat
deriving DecidableEq, Repr

/-- Outcome of running a lifecycle call: a value, a runtime panic, or
blocking forever. -/
inductive ExecOutcome (α : Type) where
  | ok (a : α)
  | panicked
  | blocked
deriving DecidableEq, Repr

/-- close(ch) — panics when the channel is already closed. -/
def closeChannel (alreadyClosed : Bool) : ExecOutcome Unit :=
  if alreadyClosed then ExecOutcome.panicked else ExecOutcome.ok ()

/-- StreamChecker.worker observed for fuel select iterations: it returns as
soon as it sees the closed stopCh, and keeps looping on ticker ticks
otherwise.  The result is true when the worker has returned. -/
def workerRuns (stopClosed : Bool) : Nat → Bool
  | 0 => false
  | Nat.succ fuel => if stopClosed then true else workerRuns stopClosed fuel

/-- StreamChecker.Start: launches the configured number of workers (no
dedup guard — a second Start adds more workers). -/
def Start (s : StreamCheckerState) (workers : Nat) : StreamCheckerState :=
  { s with runningWorkers := s.runningWorkers + workers }

/-- sync.WaitGroup.Wait: returns once every worker has returned.  Workers
return exactly when stopCh is closed (workerRuns), so the wait completes iff
the channel is closed or nothing is running; otherwise it blocks forever. -/
def wgWait (s : StreamCheckerState) : ExecOutcome StreamCheckerState :=
  if s.stopClosed ∨ s.runningWorkers = 0 then
    ExecOutcome.ok { s with runningWorkers := 0 }
  else
    ExecOutcome.blocked

/-- StreamChecker.Stop: the select observes an already-closed stopCh and
returns nil at once; otherwise it closes the channel and waits for the
workers to drain.  The returned Option String is the Go error value (always
nil). -/
def Stop (s : StreamCheckerState) : ExecOutcome (StreamCheckerState × Option String) :=
  if s.stopClosed then
    ExecOutcome.ok (s, none)
  else
    match closeChannel s.stopClosed with
    | ExecOutcome.panicked => ExecOutcome.panicked
    | ExecOutcome.blocked => ExecOutcome.blocked
    | ExecOutcome.ok _ =>
      match wgWait { s with stopClosed := true } with
      | ExecOutcome.ok s2 => ExecOutcome.ok (s2, none)
      | ExecOutcome.panicked => ExecOutcome.panicked
      | ExecOutcome.blocked => ExecOutcome.blocked

/-! ## Aggregation lemmas -/

theorem collectLoop_spec (l : List SegmentCheck) (acc : SegmentResults) :
    collectLoop acc l =
      { checked := acc.checked + l.length,
        total := acc.total,
        failed := acc.failed + l.countP (fun c => !c.success),
        details := acc.details ++ l } := by
  induction l generalizing acc with
  | nil => simp [collectLoop]
  | cons c rest ih =>
    rw [collectLoop, ih]
    by_cases hc : c.success
    · simp [hc, List.countP_cons, List.append_assoc]
      omega
    · simp [hc, List.countP_cons, List.append_assoc]
      omega

theorem variantChecks_fst (env : CheckEnv) (cfg : StreamConfig) (v : Variant)
    (pr : Nat × List SegmentCheck) (h : variantChecks env cfg v = some pr) :
    pr.1 = pr.2.length := by
  simp only [variantChecks] at h
  split at h
  · have h2 := Option.some.inj h; subst h2; rfl
  · split at h
    · have h2 := Option.some.inj h; subst h2; rfl
    · split at h
      · have h2 := Option.some.inj h; subst h2; rfl
      · split at h
        · exact absurd h (by simp)
        · have h2 := Option.some.inj h; subst h2; simp

theorem variantsFold_fst (env : CheckEnv) (cfg : StreamConfig) :
    ∀ (vs : List Variant) (pairs : List (Nat × List SegmentCheck)),
      variantsFold env cfg vs = some pairs →
      ∀ pr ∈ pairs, pr.1 = pr.2.length := by
  intro vs
  induction vs with
  | nil =>
    intro pairs h pr hpr
    simp [variantsFold] at h
    subst h
    simp at hpr
  | cons v rest ih =>
    intro pairs h pr hpr
    unfold variantsFold at h
    cases hv : variantChecks env cfg v with
    | none => rw [hv] at h; exact absurd h (by simp)
    | some pr0 =>
      rw [hv] at h
      cases hr : variantsFold env cfg rest with
      | none => rw [hr] at h; exact absurd h (by simp)
      | some prs =>
        rw [hr] at h
        simp at h
        subst h
        rcases List.mem_cons.mp hpr with h1 | h2
        · subst h1; exact variantChecks_fst env cfg v pr hv
        · exact ih prs hr pr h2

theorem checkVariants_spec (env : CheckEnv) (master : MasterPlaylist)
    (cfg : StreamConfig) (sr : SegmentResults)
    (h : checkVariants env master cfg = some sr) :
    sr.failed ≤ sr.checked ∧ sr.checked = sr.details.length ∧ sr.total = sr.checked := by
  unfold checkVariants at h
  cases hp : variantsFold env cfg master.variants with
  | none => rw [hp] at h; exact absurd h (by simp)
  | some pairs =>
    rw [hp] at h
    replace h := Option.some.inj h
    subst h
    rw [collectLoop_spec]
    have hfst : ∀ pr ∈ pairs, Prod.fst pr = pr.2.length :=
      variantsFold_fst env cfg master.variants pairs hp
    have htot : (pairs.map Prod.fst).sum = (pairs.map Prod.snd).flatten.length := by
      rw [List.length_flatten, List.map_map]
      exact congrArg List.sum (List.map_congr_left hfst)
    refine ⟨?_, ?_, ?_⟩
    · have hc := List.countP_le_length
        (l := (pairs.map Prod.snd).flatten) (p := fun c => !c.success)
      dsimp only
      omega
    · dsimp only
      simp
    · dsimp only
      rw [Nat.zero_add]
      exact htot

/-! ## C1, C2, C5, C8 — Check-level properties -/

/-- C1: for every CheckResult produced by StreamChecker.Check, the segment
aggregate satisfies Segments.Failed ≤ Segments.Checked and Segments.Checked
equals the length of Segments.Details, for every outcome of the per-variant
and per-segment stages. -/
theorem check_segment_invariant (env : CheckEnv) (cfg : StreamConfig)
    (r : CheckResult) (e : Option String) (h : Check env cfg = some (r, e)) :
    r.segments.failed ≤ r.segments.checked ∧
      r.segments.checked = r.segments.details.length := by
  unfold Check at h
  cases hm : checkMasterPlaylist env cfg.url with
  | error pe =>
    obtain ⟨et, msg⟩ := pe
    rw [hm] at h
    replace h := Option.some.inj h
    simp only [Prod.mk.injEq] at h
    obtain ⟨h1, _⟩ := h
    subst h1
    simp [zeroSegmentResults]
  | ok pr =>
    obtain ⟨master, hdrs⟩ := pr
    rw [hm] at h
    dsimp only at h
    cases hv : checkVariants env master cfg with
    | none => rw [hv] at h; exact absurd h (by simp)
    | some sr =>
      rw [hv] at h
      obtain ⟨h1, h2, h3⟩ := checkVariants_spec env master cfg sr hv
      dsimp only at h
      by_cases hf : 0 < sr.failed
      · rw [if_pos hf] at h
        replace h := Option.some.inj h
        simp only [Prod.mk.injEq] at h
        obtain ⟨hr, _⟩ := h
        subst hr
        simp only [updateResultStatus]
        exact ⟨h1, h2⟩
      · rw [if_neg hf] at h
        replace h := Option.some.inj h
        simp only [Prod.mk.injEq] at h
        obtain ⟨hr, _⟩ := h
        subst hr
        simp only [updateResultStatus]
        exact ⟨h1, h2⟩

/-- C2: Check returns Success = true iff the master-playlist stage (fetch,
parse, ValidateMaster) succeeded and the aggregated Segments.Failed is zero,
and the Go error return value is non-nil exactly when Success = false. -/
theorem check_success_iff (env : CheckEnv) (cfg : StreamConfig)
    (r : CheckResult) (e : Option String) (h : Check env cfg = some (r, e)) :
    (r.success = true ↔
      ((checkMasterPlaylist env cfg.url).isOk = true ∧ r.segments.failed = 0)) ∧
    (e.isSome = true ↔ r.success = false) := by
  unfold Check at h
  cases hm : checkMasterPlaylist env cfg.url with
  | error pe =>
    obtain ⟨et, msg⟩ := pe
    rw [hm] at h
    replace h := Option.some.inj h
    simp only [Prod.mk.injEq] at h
    obtain ⟨h1, h2⟩ := h
    subst h1
    subst h2
    simp [Except.isOk, Except.toBool]
  | ok pr =>
    obtain ⟨master, hdrs⟩ := pr
    rw [hm] at h
    dsimp only at h
    cases hv : checkVariants env master cfg with
    | none => rw [hv] at h; exact absurd h (by simp)
    | some sr =>
      rw [hv] at h
      dsimp only at h
      by_cases hf : 0 < sr.failed
      · rw [if_pos hf] at h
        replace h := Option.some.inj h
        simp only [Prod.mk.injEq] at h
        obtain ⟨hr, he⟩ := h
        subst hr
        subst he
        simp only [updateResultStatus, Except.isOk, Except.toBool]
        constructor
        · constructor
          · intro hcontra; exact absurd hcontra (by simp)
          · rintro ⟨-, hzero⟩; omega
        · simp
      · rw [if_neg hf] at h
        replace h := Option.some.inj h
        simp only [Prod.mk.injEq] at h
        obtain ⟨hr, he⟩ := h
        subst hr
        subst he
        simp only [updateResultStatus, Except.isOk, Except.toBool]
        constructor
        · simp
          omega
        · simp

/-- C5: whenever the aggregated Segments.Failed is positive, Check attaches
a SegmentValidate error whose message is "(failed) of (checked) segments
failed validation"; the source formats Segments.Total there, and Total
provably equals Checked (every selected segment deposits exactly one
SegmentCheck). -/
theorem check_failed_error_message (env : CheckEnv) (cfg : StreamConfig)
    (r : CheckResult) (e : Option String) (h : Check env cfg = some (r, e))
    (hf : 0 < r.segments.failed) :
    r.error = some
      { etype := ErrorType.segmentValidate,
        message := toString r.segments.failed ++ " of " ++
          toString r.segments.checked ++ " segments failed validation" } := by
  unfold Check at h
  cases hm : checkMasterPlaylist env cfg.url with
  | error pe =>
    obtain ⟨et, msg⟩ := pe
    rw [hm] at h
    replace h := Option.some.inj h
    simp only [Prod.mk.injEq] at h
    obtain ⟨h1, _⟩ := h
    subst h1
    simp [zeroSegmentResults] at hf
  | ok pr =>
    obtain ⟨master, hdrs⟩ := pr
    rw [hm] at h
    dsimp only at h
    cases hv : checkVariants env master cfg with
    | none => rw [hv] at h; exact absurd h (by simp)
    | some sr =>
      rw [hv] at h
      obtain ⟨-, -, h3⟩ := checkVariants_spec env master cfg sr hv
      dsimp only at h
      by_cases hpos : 0 < sr.failed
      · rw [if_pos hpos] at h
        replace h := Option.some.inj h
        simp only [Prod.mk.injEq] at h
        obtain ⟨hr, -⟩ := h
        subst hr
        simp only [updateResultStatus, h3]
      · rw [if_neg hpos] at h
        replace h := Option.some.inj h
        simp only [Prod.mk.injEq] at h
        obtain ⟨hr, -⟩ := h
        subst hr
        simp only [updateResultStatus] at hf
        omega

/-- C8: when the master playlist fetch observes a status other than 200,
GetPlaylist returns an error and the invocation ends with Success = false,
a PlaylistDownload top-level error, Segments.Checked = 0 and a non-nil Go
error. -/
theorem check_master_non200 (env : CheckEnv) (cfg : StreamConfig)
    (sc : Nat) (body : ParsedBody) (hdrs : List (String × String))
    (hresp : env.playlistAt cfg.url = FetchOutcome.response sc body hdrs)
    (hsc : sc ≠ 200) :
    GetPlaylist (env.playlistAt cfg.url) =
      Except.error ("unexpected status code: " ++ toString sc) ∧
    Check env cfg = some
      ({ success := false,
         streamName := cfg.name,
         streamStatus := zeroStreamStatus,
         segments := zeroSegmentResults,
         error := some
           { etype := ErrorType.playlistDownload,
             message := "unexpected status code: " ++ toString sc } },
       some ("unexpected status code: " ++ toString sc)) ∧
    zeroSegmentResults.checked = 0 := by
  have hget : GetPlaylist (env.playlistAt cfg.url) =
      Except.error ("unexpected status code: " ++ toString sc) := by
    rw [hresp]
    simp [GetPlaylist, hsc]
  refine ⟨hget, ?_, rfl⟩
  unfold Check checkMasterPlaylist
  rw [hget]

/-! ## Concrete environments used by the witnesses -/

/-- The placeholder MediaInfo produced by analyzeSegment in client.go. -/
def tsInfo : MediaInfo :=
  { container := "TS", bitrate := 0, hasVideo := true, hasAudio := true,
    isComplete := true }

/-- A master playlist with a single variant. -/
def masterA : MasterPlaylist := { variants := [{ uri := "v.m3u8" }] }

/-- A 10-second, sequence-0 segment. -/
def segA : MediaSegment := { uri := "seg.ts", duration := 10, seqId := 0 }

/-- A one-segment media playlist. -/
def mediaA : MediaPlaylist := { count := 1, segments := [some segA] }

/-- Scenario A: master with one variant with one healthy 1024-byte segment,
content validation disabled. -/
def envA : CheckEnv :=
  { playlistAt := fun u =>
      if u = "master.m3u8" then
        FetchOutcome.response 200 (ParsedBody.master masterA) []
      else if u = "v.m3u8" then
        FetchOutcome.response 200 (ParsedBody.media mediaA) []
      else FetchOutcome.netError "unknown url",
    segmentAt := fun _ _ =>
      Except.ok { mediaInfo := tsInfo, statusCode := 200, size := 1024, duration := 1 },
    resolve := fun _ rel => rel,
    draws := fun _ _ => 0,
    fuel := 0 }

/-- The stream configuration of scenario A. -/
def cfgA : StreamConfig :=
  { name := "stream_1", url := "master.m3u8", checkMode := "all",
    validateContent := false, mediaValidation := none }

/-- The CheckResult scenario A produces. -/
def resultA : CheckResult :=
  { success := true,
    streamName := "stream_1",
    streamStatus :=
      { isLive := true, variantsCount := 1, segmentsCount := 1,
        lastModifiedHeader := "" },
    segments :=
      { checked := 1, total := 1, failed := 0,
        details := [{ url := "seg.ts", success := true, duration := 1, error := none }] },
    error := none }

/-- Scenario B: the same playlists, but the segment download fails. -/
def envB : CheckEnv :=
  { envA with segmentAt := fun _ _ => Except.error "connection refused" }

/-- The CheckResult scenario B produces. -/
def resultB : CheckResult :=
  { success := false,
    streamName := "stream_1",
    streamStatus :=
      { isLive := true, variantsCount := 1, segmentsCount := 1,
        lastModifiedHeader := "" },
    segments :=
      { checked := 1, total := 1, failed := 1,
        details := [{ url := "seg.ts", success := false, duration := 0,
                      error := some { etype := ErrorType.segmentDownload,
                                      message := "connection refused" } }] },
    error := some { etype := ErrorType.segmentValidate,
                    message := "1 of 1 segments failed validation" } }

/-- An environment whose master playlist endpoint answers 404. -/
def env404 : CheckEnv :=
  { envA with playlistAt := fun _ =>
      FetchOutcome.response 404 (ParsedBody.malformed "not found") [] }

/-- C1 witness: the invariant at scenario A's concrete result. -/
theorem check_segment_invariant_witness :
    resultA.segments.failed ≤ resultA.segments.checked ∧
      resultA.segments.checked = resultA.segments.details.length :=
  check_segment_invariant envA cfgA resultA none (by decide)

/-- C2 witness: the success-iff property at scenario A. -/
theorem check_success_iff_witness :
    (resultA.success = true ↔
      ((checkMasterPlaylist envA cfgA.url).isOk = true ∧
        resultA.segments.failed = 0)) ∧
    ((none : Option String).isSome = true ↔ resultA.success = false) :=
  check_success_iff envA cfgA resultA none (by decide)

/-- C5 witness: the synthesized error message at scenario B. -/
theorem check_failed_error_message_witness :
    resultB.error = some
      { etype := ErrorType.segmentValidate,
        message := toString resultB.segments.failed ++ " of " ++
          toString resultB.segments.checked ++ " segments failed validation" } :=
  check_failed_error_message envB cfgA resultB
    (some "segment validation failed: 1 of 1 segments failed validation")
    (by decide) (by decide)

/-- C8 witness: a 404 master fetch at the concrete environment. -/
theorem check_master_non200_witness :
    GetPlaylist (env404.playlistAt cfgA.url) =
      Except.error ("unexpected status code: " ++ toString 404) ∧
    Check env404 cfgA = some
      ({ success := false,
         streamName := cfgA.name,
         streamStatus := zeroStreamStatus,
         segments := zeroSegmentResults,
         error := some
           { etype := ErrorType.playlistDownload,
             message := "unexpected status code: " ++ toString 404 } },
       some ("unexpected status code: " ++ toString 404)) ∧
    zeroSegmentResults.checked = 0 :=
  check_master_non200 env404 cfgA 404 (ParsedBody.malformed "not found") []
    (by decide) (by decide)

/-! ## C6 — ValidateMedia -/

theorem scanSeq_eq_none_iff (l : List (Option MediaSegment)) :
    ∀ prev, HLSValidator.scanSeq prev l = none ↔
      List.Chain (fun a b => a ≤ b) prev
        ((l.filterMap id).map MediaSegment.seqId) := by
  induction l with
  | nil =>
    intro prev
    simp [HLSValidator.scanSeq]
  | cons o rest ih =>
    intro prev
    cases o with
    | none =>
      simpa [HLSValidator.scanSeq] using ih prev
    | some seg =>
      by_cases hlt : seg.seqId < prev
      · simp only [HLSValidator.scanSeq, if_pos hlt]
        simp only [List.filterMap_cons, id, List.map_cons, List.chain_cons]
        constructor
        · intro hcontra; exact absurd hcontra (by simp)
        · rintro ⟨hle, -⟩; omega
      · simp only [HLSValidator.scanSeq, if_neg hlt]
        simp only [List.filterMap_cons, id, List.map_cons, List.chain_cons]
        rw [ih seg.seqId]
        constructor
        · intro hc; exact ⟨by omega, hc⟩
        · rintro ⟨-, hc⟩; exact hc

theorem chain_zero_iff_chain' (xs : List Nat) :
    List.Chain (fun a b => a ≤ b) 0 xs ↔ List.Chain' (fun a b => a ≤ b) xs := by
  cases xs with
  | nil => simp
  | cons a t => simp [List.chain_cons, List.Chain']

/-- C6: ValidateMedia returns an error exactly when the playlist is absent,
has zero segments, or the non-nil-segment sequence numbers are not
non-decreasing (equal neighbours are accepted; nil slots are skipped). -/
theorem validate_media_error_iff (op : Option MediaPlaylist) :
    (HLSValidator.ValidateMedia op).isSome = true ↔
      op = none ∨ ∃ p, op = some p ∧
        (p.count = 0 ∨
          ¬ List.Chain' (fun a b => a ≤ b)
              ((p.segments.filterMap id).map MediaSegment.seqId)) := by
  cases op with
  | none => simp [HLSValidator.ValidateMedia]
  | some p =>
    by_cases hc : p.count = 0
    · simp [HLSValidator.ValidateMedia, hc]
    · simp only [HLSValidator.ValidateMedia, if_neg hc]
      rw [Option.isSome_iff_ne_none]
      rw [Ne, scanSeq_eq_none_iff, chain_zero_iff_chain']
      simp [hc]

/-! ## C4 — segment validation gating -/

/-- An environment whose segment endpoint reports a zero-byte segment. -/
def envC4 : CheckEnv :=
  { envA with segmentAt := fun _ _ =>
      Except.ok { mediaInfo := tsInfo, statusCode := 200, size := 0, duration := 1 } }

/-- C4 counterexample: it is not true that basic validation is applied to
every fetched segment regardless of the content-validation flag — with
content validation disabled, a zero-byte segment is reported successful,
although ValidateBasic rejects size 0. -/
theorem checkSegment_basic_not_always :
    ¬ (∀ (env : CheckEnv) (seg : MediaSegment) (cfg : StreamConfig)
        (resp : SegmentResponse),
        env.segmentAt seg.uri cfg.validateContent = Except.ok resp →
        resp.size = 0 →
        (checkSegment env seg cfg).success = false) := by
  intro hclaim
  have hc := hclaim envC4 segA cfgA
    { mediaInfo := tsInfo, statusCode := 200, size := 0, duration := 1 }
    (by rfl) (by decide)
  exact absurd hc (by decide)

/-- C4 amended: when the download fails the check fails with SegmentDownload;
when content validation is disabled no validation runs at all and a
downloaded segment is always reported successful; when content validation is
enabled the validator decides the check, with basic validation applied
regardless of whether a MediaValidation policy is supplied and media
validation applied exactly when one is. -/
theorem checkSegment_validation_policy (env : CheckEnv) (seg : MediaSegment)
    (cfg : StreamConfig) :
    (∀ msg, env.segmentAt seg.uri cfg.validateContent = Except.error msg →
      (checkSegment env seg cfg).success = false ∧
      (checkSegment env seg cfg).error =
        some { etype := ErrorType.segmentDownload, message := msg }) ∧
    (cfg.validateContent = false →
      ∀ resp, env.segmentAt seg.uri cfg.validateContent = Except.ok resp →
      (checkSegment env seg cfg).success = true ∧
      (checkSegment env seg cfg).error = none) ∧
    (cfg.validateContent = true →
      ∀ resp, env.segmentAt seg.uri cfg.validateContent = Except.ok resp →
      ((checkSegment env seg cfg).success = true ↔
        HLSValidator.ValidateSegment
          { uri := seg.uri, duration := seg.duration,
            size := resp.size, mediaInfo := resp.mediaInfo }
          cfg.mediaValidation = none)) ∧
    (∀ s, HLSValidator.ValidateSegment s none =
      BasicSegmentValidator.ValidateBasic s) ∧
    (∀ s v, BasicSegmentValidator.ValidateBasic s = none →
      HLSValidator.ValidateSegment s (some v) =
        BasicSegmentValidator.ValidateMedia s v) ∧
    (∀ s v e, BasicSegmentValidator.ValidateBasic s = some e →
      HLSValidator.ValidateSegment s v = some e) := by
  refine ⟨?_, ?_, ?_, ?_, ?_, ?_⟩
  · intro msg hmsg
    unfold checkSegment
    rw [hmsg]
    exact ⟨rfl, rfl⟩
  · intro hflag resp hresp
    unfold checkSegment
    rw [hresp]
    simp [hflag]
  · intro hflag resp hresp
    unfold checkSegment
    rw [hresp]
    simp only [hflag, Bool.not_true, Bool.false_eq_true, if_false]
    cases hv : HLSValidator.ValidateSegment
        { uri := seg.uri, duration := seg.duration,
          size := resp.size, mediaInfo := resp.mediaInfo }
        cfg.mediaValidation with
    | none => simp
    | some e => simp
  · intro s
    unfold HLSValidator.ValidateSegment
    cases hb : BasicSegmentValidator.ValidateBasic s <;> simp
  · intro s v hb
    unfold HLSValidator.ValidateSegment
    rw [hb]
  · intro s v e hb
    unfold HLSValidator.ValidateSegment
    rw [hb]

/-- C4 witness: with content validation disabled, scenario envC4's zero-byte
segment is nevertheless reported successful. -/
theorem checkSegment_validation_policy_witness :
    (checkSegment envC4 segA cfgA).success = true ∧
      (checkSegment envC4 segA cfgA).error = none :=
  (checkSegment_validation_policy envC4 segA cfgA).2.1 (by decide)
    { mediaInfo := tsInfo, statusCode := 200, size := 0, duration := 1 }
    (by rfl)

/-! ## Random-selector lemmas (shared by C3, C7, C10) -/

theorem filterMap_segAt_length (p : MediaPlaylist) :
    ∀ l : List Nat, (∀ i ∈ l, (segAt p i).isSome = true) →
      (l.filterMap (segAt p)).length = l.length := by
  intro l
  induction l with
  | nil => intro _; simp
  | cons i rest ih =>
    intro hall
    have hi : (segAt p i).isSome = true := hall i (by simp)
    obtain ⟨s, hs⟩ := Option.isSome_iff_exists.mp hi
    simp only [List.filterMap_cons, hs, List.length_cons]
    rw [ih (fun j hj => hall j (by simp [hj]))]

theorem nodup_length_le_countP (n : Nat) (pred : Nat → Bool) :
    ∀ seen : List Nat, seen.Nodup → (∀ i ∈ seen, i < n ∧ pred i = true) →
      seen.length ≤ (List.range n).countP pred := by
  intro seen hnd hmem
  rw [List.countP_eq_length_filter]
  refine (List.subperm_of_subset hnd ?_).length_le
  intro i hi
  rcases hmem i hi with ⟨h1, h2⟩
  exact List.mem_filter.mpr ⟨List.mem_range.mpr h1, h2⟩

theorem randomLoop_some_length (draws : Nat → Nat) (p : MediaPlaylist) (target : Nat) :
    ∀ (fuel : Nat) (segments : List MediaSegment) (seen : List Nat) (k : Nat)
      (segs : List MediaSegment),
      segments.length ≤ target →
      randomLoop draws p target fuel segments seen k = some segs →
      segs.length = target := by
  intro fuel
  induction fuel with
  | zero =>
    intro segments seen k segs hle h
    unfold randomLoop at h
    by_cases ht : target ≤ segments.length
    · rw [if_pos ht] at h
      replace h := Option.some.inj h
      subst h
      omega
    · rw [if_neg ht] at h
      exact absurd h (by simp)
  | succ fuel2 ih =>
    intro segments seen k segs hle h
    unfold randomLoop at h
    by_cases ht : target ≤ segments.length
    · rw [if_pos ht] at h
      replace h := Option.some.inj h
      subst h
      omega
    · rw [if_neg ht] at h
      cases hdr : (if draws k ∈ seen then none else segAt p (draws k)) with
      | some seg =>
        rw [hdr] at h
        exact ih (segments ++ [seg]) (seen ++ [draws k]) (k + 1) segs
          (by simp; omega) h
      | none =>
        rw [hdr] at h
        exact ih segments seen (k + 1) segs (by omega) h

theorem randomLoop_some_inv (draws : Nat → Nat) (p : MediaPlaylist) (target : Nat)
    (Q : Nat → Prop) (hQ : ∀ j, Q (draws j)) :
    ∀ (fuel : Nat) (segments : List MediaSegment) (seen : List Nat) (k : Nat)
      (segs : List MediaSegment),
      seen.Nodup →
      segments = seen.filterMap (segAt p) →
      (∀ i ∈ seen, (segAt p i).isSome = true ∧ Q i) →
      randomLoop draws p target fuel segments seen k = some segs →
      ∃ seenF : List Nat, seenF.Nodup ∧
        segs = seenF.filterMap (segAt p) ∧
        (∀ i ∈ seenF, (segAt p i).isSome = true ∧ Q i) := by
  intro fuel
  induction fuel with
  | zero =>
    intro segments seen k segs hnd hrep hall h
    unfold randomLoop at h
    by_cases ht : target ≤ segments.length
    · rw [if_pos ht] at h
      replace h := Option.some.inj h
      subst h
      exact ⟨seen, hnd, hrep, hall⟩
    · rw [if_neg ht] at h
      exact absurd h (by simp)
  | succ fuel2 ih =>
    intro segments seen k segs hnd hrep hall h
    unfold randomLoop at h
    by_cases ht : target ≤ segments.length
    · rw [if_pos ht] at h
      replace h := Option.some.inj h
      subst h
      exact ⟨seen, hnd, hrep, hall⟩
    · rw [if_neg ht] at h
      by_cases hm : draws k ∈ seen
      · rw [if_pos hm] at h
        exact ih segments seen (k + 1) segs hnd hrep hall h
      · rw [if_neg hm] at h
        cases hat : segAt p (draws k) with
        | none =>
          rw [hat] at h
          exact ih segments seen (k + 1) segs hnd hrep hall h
        | some seg =>
          rw [hat] at h
          refine ih (segments ++ [seg]) (seen ++ [draws k]) (k + 1) segs ?_ ?_ ?_ h
          · simp [List.nodup_append, hnd, hm]
          · rw [hrep, List.filterMap_append]
            simp [hat]
          · intro i hi
            rcases List.mem_append.mp hi with h1 | h2
            · exact hall i h1
            · have : i = draws k := by simpa using h2
              subst this
              exact ⟨by simp [hat], hQ k⟩

theorem randomLoop_none_of_few (draws : Nat → Nat) (p : MediaPlaylist) (target : Nat)
    (hd : ∀ j, draws j < p.count)
    (hfew : (List.range p.count).countP (fun i => (segAt p i).isSome) < target) :
    ∀ (fuel : Nat) (segments : List MediaSegment) (seen : List Nat) (k : Nat),
      seen.Nodup →
      segments = seen.filterMap (segAt p) →
      (∀ i ∈ seen, (segAt p i).isSome = true ∧ i < p.count) →
      randomLoop draws p target fuel segments seen k = none := by
  intro fuel
  induction fuel with
  | zero =>
    intro segments seen k hnd hrep hall
    unfold randomLoop
    have hlt : segments.length < target := by
      have h1 : segments.length = seen.length := by
        rw [hrep]
        exact filterMap_segAt_length p seen (fun i hi => (hall i hi).1)
      have h2 : seen.length ≤ (List.range p.count).countP (fun i => (segAt p i).isSome) :=
        nodup_length_le_countP p.count _ seen hnd (fun i hi => ⟨(hall i hi).2, (hall i hi).1⟩)
      omega
    rw [if_neg (by omega)]
  | succ fuel2 ih =>
    intro segments seen k hnd hrep hall
    unfold randomLoop
    have hlt : segments.length < target := by
      have h1 : segments.length = seen.length := by
        rw [hrep]
        exact filterMap_segAt_length p seen (fun i hi => (hall i hi).1)
      have h2 : seen.length ≤ (List.range p.count).countP (fun i => (segAt p i).isSome) :=
        nodup_length_le_countP p.count _ seen hnd (fun i hi => ⟨(hall i hi).2, (hall i hi).1⟩)
      omega
    rw [if_neg (by omega)]
    by_cases hm : draws k ∈ seen
    · rw [if_pos hm]
      exact ih segments seen (k + 1) hnd hrep hall
    · rw [if_neg hm]
      cases hat : segAt p (draws k) with
      | none =>
        exact ih segments seen (k + 1) hnd hrep hall
      | some seg =>
        refine ih (segments ++ [seg]) (seen ++ [draws k]) (k + 1) ?_ ?_ ?_
        · simp [List.nodup_append, hnd, hm]
        · rw [hrep, List.filterMap_append]
          simp [hat]
        · intro i hi
          rcases List.mem_append.mp hi with h1 | h2
          · exact hall i h1
          · have : i = draws k := by simpa using h2
            subst this
            exact ⟨by simp [hat], hd k⟩

/-- The non-nil slot indices below Count(), in increasing order. -/
def nonNilIdxs (p : MediaPlaylist) : List Nat :=
  (List.range p.count).filter (fun i => (segAt p i).isSome)

theorem nonNilIdxs_nodup (p : MediaPlaylist) : (nonNilIdxs p).Nodup :=
  (List.nodup_range p.count).filter _

theorem nonNilIdxs_length (p : MediaPlaylist) :
    (nonNilIdxs p).length =
      (List.range p.count).countP (fun i => (segAt p i).isSome) :=
  (List.countP_eq_length_filter _ _).symm

theorem nonNilIdxs_mem (p : MediaPlaylist) (i : Nat) (h : i ∈ nonNilIdxs p) :
    i < p.count ∧ (segAt p i).isSome = true := by
  rcases List.mem_filter.mp h with ⟨h1, h2⟩
  exact ⟨List.mem_range.mp h1, h2⟩

theorem nonNilIdxs_take_all_isSome (p : MediaPlaylist) (j : Nat) :
    ∀ i ∈ (nonNilIdxs p).take j, (segAt p i).isSome = true :=
  fun i hi => (nonNilIdxs_mem p i (List.mem_of_mem_take hi)).2

theorem nonNilIdxs_take_length (p : MediaPlaylist) (j : Nat)
    (hj : j ≤ (nonNilIdxs p).length) :
    (((nonNilIdxs p).take j).filterMap (segAt p)).length = j := by
  rw [filterMap_segAt_length p _ (nonNilIdxs_take_all_isSome p j)]
  simpa using hj

theorem nonNilIdxs_getElem_not_mem_take (p : MediaPlaylist) (j : Nat)
    (hj : j < (nonNilIdxs p).length) :
    (nonNilIdxs p).get ⟨j, hj⟩ ∉ (nonNilIdxs p).take j := by
  intro hmem
  obtain ⟨i, hi, hival⟩ := List.getElem_of_mem hmem
  have hij : i < j := by
    simp only [List.length_take] at hi
    omega
  have hil : i < (nonNilIdxs p).length := by omega
  rw [List.getElem_take] at hival
  have hival2 : (nonNilIdxs p).get ⟨i, hil⟩ = (nonNilIdxs p).get ⟨j, hj⟩ := by
    simpa [List.get_eq_getElem] using hival
  have heq : (⟨i, hil⟩ : Fin (nonNilIdxs p).length) = ⟨j, hj⟩ :=
    (List.Nodup.get_inj_iff (nonNilIdxs_nodup p)).mp hival2
  have : i = j := by simpa using congrArg Fin.val heq
  omega

theorem randomLoop_exit (draws : Nat → Nat) (p : MediaPlaylist) (target : Nat)
    (fuel : Nat) (segments : List MediaSegment) (seen : List Nat) (k : Nat)
    (hge : target ≤ segments.length) :
    randomLoop draws p target fuel segments seen k = some segments := by
  unfold randomLoop
  rw [if_pos hge]

theorem randomLoop_succ_step (draws : Nat → Nat) (p : MediaPlaylist) (target : Nat)
    (fuel : Nat) (segments : List MediaSegment) (seen : List Nat) (k : Nat)
    (hlt : ¬ target ≤ segments.length) (hm : draws k ∉ seen)
    (seg : MediaSegment) (hat : segAt p (draws k) = some seg) :
    randomLoop draws p target (fuel + 1) segments seen k =
      randomLoop draws p target fuel (segments ++ [seg]) (seen ++ [draws k]) (k + 1) := by
  conv_lhs => unfold randomLoop
  rw [if_neg hlt, if_neg hm, hat]

theorem randomLoop_run (p : MediaPlaylist) (target : Nat)
    (htar : target ≤ (nonNilIdxs p).length) :
    ∀ (m j : Nat), j + m = target →
      randomLoop (fun k => (nonNilIdxs p).getD k 0) p target m
        (((nonNilIdxs p).take j).filterMap (segAt p)) ((nonNilIdxs p).take j) j =
      some (((nonNilIdxs p).take target).filterMap (segAt p)) := by
  intro m
  induction m with
  | zero =>
    intro j hj
    have hj2 : j = target := by omega
    rw [hj2]
    exact randomLoop_exit _ p target 0 _ _ target
      (le_of_eq (nonNilIdxs_take_length p target htar).symm)
  | succ m2 ih =>
    intro j hj
    have hjlt : j < target := by omega
    have hjlen : j < (nonNilIdxs p).length := by omega
    have hlt : ¬ target ≤ (((nonNilIdxs p).take j).filterMap (segAt p)).length := by
      rw [nonNilIdxs_take_length p j (by omega)]
      omega
    have hdj : (nonNilIdxs p).getD j 0 = (nonNilIdxs p).get ⟨j, hjlen⟩ := by
      rw [List.getD_eq_getElem (nonNilIdxs p) 0 hjlen]
      simp [List.get_eq_getElem]
    have hm : (nonNilIdxs p).getD j 0 ∉ (nonNilIdxs p).take j := by
      rw [hdj]
      exact nonNilIdxs_getElem_not_mem_take p j hjlen
    have hsome : (segAt p ((nonNilIdxs p).getD j 0)).isSome = true := by
      rw [hdj]
      exact (nonNilIdxs_mem p _ (List.get_mem (nonNilIdxs p) j hjlen)).2
    obtain ⟨seg, hseg⟩ := Option.isSome_iff_exists.mp hsome
    rw [randomLoop_succ_step (fun k => (nonNilIdxs p).getD k 0) p target m2
      (((nonNilIdxs p).take j).filterMap (segAt p)) ((nonNilIdxs p).take j) j
      hlt hm seg hseg]
    have htake : (nonNilIdxs p).take (j + 1) =
        (nonNilIdxs p).take j ++ [(nonNilIdxs p).getD j 0] := by
      rw [List.take_succ, List.getElem?_eq_getElem hjlen]
      rw [hdj]
      simp [List.get_eq_getElem]
    have hsegs : ((nonNilIdxs p).take j).filterMap (segAt p) ++ [seg] =
        ((nonNilIdxs p).take (j + 1)).filterMap (segAt p) := by
      rw [htake, List.filterMap_append]
      simp only [List.filterMap_cons, List.filterMap_nil, hseg]
    rw [hsegs, show ((nonNilIdxs p).take j) ++ [(nonNilIdxs p).getD j 0] =
      (nonNilIdxs p).take (j + 1) from htake.symm]
    exact ih (j + 1) (by omega)

theorem randomLoop_enough (p : MediaPlaylist) (target : Nat)
    (htar : target ≤ (nonNilIdxs p).length) :
    randomLoop (fun k => (nonNilIdxs p).getD k 0) p target target [] [] 0 =
      some (((nonNilIdxs p).take target).filterMap (segAt p)) := by
  have h := randomLoop_run p target htar target 0 (by omega)
  simpa using h

theorem nonNilIdxs_draws_bound (p : MediaPlaylist) (hpos : 0 < p.count) (k : Nat) :
    (nonNilIdxs p).getD k 0 < p.count := by
  by_cases hk : k < (nonNilIdxs p).length
  · rw [List.getD_eq_getElem (nonNilIdxs p) 0 hk]
    exact (nonNilIdxs_mem p _ (List.getElem_mem hk)).1
  · rw [List.getD_eq_default]
    · exact hpos
    · omega

/-! ## C3, C7, C10 — the random selector -/

theorem selectSegments_random_eq (draws : Nat → Nat) (fuel : Nat)
    (p : MediaPlaylist) (hpos : 0 < p.count) :
    selectSegments draws fuel p CheckModeRandom =
      randomLoop draws p (goMin 3 p.count) fuel [] [] 0 := by
  unfold selectSegments
  rw [if_neg (by decide), if_neg (by decide), if_pos rfl, if_pos hpos]

theorem selectSegments_random_zero (draws : Nat → Nat) (fuel : Nat)
    (p : MediaPlaylist) (hpos : ¬ 0 < p.count) :
    selectSegments draws fuel p CheckModeRandom = some [] := by
  unfold selectSegments
  rw [if_neg (by decide), if_neg (by decide), if_pos rfl, if_neg hpos]

/-- A segment of the ten-segment test playlist. -/
def mkSeg (i : Nat) : MediaSegment :=
  { uri := "segment_" ++ toString i ++ ".ts", duration := 2, seqId := i }

/-- A ten-segment media playlist, all slots non-nil. -/
def p10 : MediaPlaylist :=
  { count := 10, segments := (List.range 10).map (fun i => some (mkSeg i)) }

/-- A zero-segment media playlist. -/
def pEmpty : MediaPlaylist := { count := 0, segments := [] }

/-- C3: the random-mode selection is a pure function of the math/rand draw
stream, which the source seeds from the wall clock
(rand.New(rand.NewSource(time.Now().UnixNano()))); no cryptographic entropy
source enters selectSegments.  Evaluating the embedded code at the failing
input: on a ten-segment playlist the draw stream 0,1,2,... deterministically
selects segments 0, 1 and 2. -/
theorem selectSegments_seeded_draws_eval :
    selectSegments (fun k => k % 10) 3 p10 CheckModeRandom =
      some [mkSeg 0, mkSeg 1, mkSeg 2] := by decide

/-- C7 counterexample: the configured sample size does not govern the random
selection — the selector always draws min(3, count) segments, so for a
configured sample size of 5 over a ten-segment playlist the claimed
min(5, 10) = 5 is wrong (the code returns 3). -/
theorem selectSegments_sample_size_counterexample :
    ¬ (∀ (sample : Nat) (p : MediaPlaylist) (draws : Nat → Nat) (fuel : Nat)
        (segs : List MediaSegment),
        selectSegments draws fuel p CheckModeRandom = some segs →
        segs.length = goMin sample p.count) := by
  intro hclaim
  have heval : selectSegments (fun k => k % 10) 3 p10 CheckModeRandom =
      some [mkSeg 0, mkSeg 1, mkSeg 2] := by decide
  have hlen := hclaim 5 p10 (fun k => k % 10) 3 _ heval
  simp [goMin, p10] at hlen

/-- C7 amended: in random mode a terminating selection returns exactly
min(3, segment_count) segments, drawn at distinct indices (the configured
segment_sample is never consulted); and for a playlist with zero segments
every mode returns the empty selection. -/
theorem selectSegments_spec (p : MediaPlaylist) (draws : Nat → Nat) (fuel : Nat) :
    (∀ segs, selectSegments draws fuel p CheckModeRandom = some segs →
      segs.length = goMin 3 p.count ∧
      ∃ idxs : List Nat, idxs.Nodup ∧
        (∀ i ∈ idxs, (segAt p i).isSome = true) ∧
        segs = idxs.filterMap (segAt p)) ∧
    (p.count = 0 → (∀ o ∈ p.segments, o = none) →
      ∀ mode, selectSegments draws fuel p mode = some []) := by
  constructor
  · intro segs hsel
    by_cases hpos : 0 < p.count
    · rw [selectSegments_random_eq draws fuel p hpos] at hsel
      constructor
      · exact randomLoop_some_length draws p (goMin 3 p.count) fuel [] [] 0 segs
          (by simp) hsel
      · obtain ⟨seenF, hnd, hrep, hall⟩ :=
          randomLoop_some_inv draws p (goMin 3 p.count) (fun _ => True)
            (fun _ => trivial) fuel [] [] 0 segs (by simp) (by simp) (by simp) hsel
        exact ⟨seenF, hnd, fun i hi => (hall i hi).1, hrep⟩
    · rw [selectSegments_random_zero draws fuel p hpos] at hsel
      replace hsel := Option.some.inj hsel
      have hc0 : p.count = 0 := by omega
      refine ⟨?_, [], by simp, by simp, by simp [← hsel]⟩
      simp [← hsel, goMin, hc0]
  · intro hc0 hnil mode
    unfold selectSegments
    by_cases h1 : mode = CheckModeAll
    · rw [if_pos h1]
      have : p.segments.filterMap id = [] :=
        List.filterMap_eq_nil_iff.mpr (fun o ho => hnil o ho)
      rw [this]
    · rw [if_neg h1]
      by_cases h2 : mode = CheckModeFirstLast
      · rw [if_pos h2]
        simp [hc0]
      · rw [if_neg h2]
        by_cases h3 : mode = CheckModeRandom
        · rw [if_pos h3, if_neg (by omega)]
        · rw [if_neg h3]

/-- C7 witness: the empty playlist yields the empty selection in mode all. -/
theorem selectSegments_spec_witness :
    selectSegments (fun _ => 0) 0 pEmpty CheckModeAll = some [] :=
  (selectSegments_spec pEmpty (fun _ => 0) 0).2 rfl (by simp [pEmpty]) CheckModeAll

/-- C10: for a playlist with Count() > 0 (and Count() within the backing
slice, where the Go code cannot panic), the rejection loop can terminate for
some bounded draw stream iff at least min(3, Count()) of the first Count()
slots are non-nil — nil slots are never marked seen, so with fewer non-nil
slots every draw stream redraws forever; and a terminating run returns
exactly min(3, Count()) segments drawn at distinct non-nil indices below
Count(). -/
theorem selectSegments_random_termination (p : MediaPlaylist)
    (_hlen : p.count ≤ p.segments.length) (hpos : 0 < p.count) :
    ((∃ draws : Nat → Nat, ∃ fuel : Nat, (∀ k, draws k < p.count) ∧
        (selectSegments draws fuel p CheckModeRandom).isSome = true) ↔
      goMin 3 p.count ≤ (List.range p.count).countP (fun i => (segAt p i).isSome)) ∧
    (∀ (draws : Nat → Nat) (fuel : Nat) (segs : List MediaSegment),
      (∀ k, draws k < p.count) →
      selectSegments draws fuel p CheckModeRandom = some segs →
      segs.length = goMin 3 p.count ∧
      ∃ idxs : List Nat, idxs.Nodup ∧
        (∀ i ∈ idxs, i < p.count ∧ (segAt p i).isSome = true) ∧
        segs = idxs.filterMap (segAt p)) := by
  have hmain : ∀ (draws : Nat → Nat) (fuel : Nat) (segs : List MediaSegment),
      (∀ k, draws k < p.count) →
      selectSegments draws fuel p CheckModeRandom = some segs →
      segs.length = goMin 3 p.count ∧
      ∃ idxs : List Nat, idxs.Nodup ∧
        (∀ i ∈ idxs, i < p.count ∧ (segAt p i).isSome = true) ∧
        segs = idxs.filterMap (segAt p) := by
    intro draws fuel segs hb hsel
    rw [selectSegments_random_eq draws fuel p hpos] at hsel
    constructor
    · exact randomLoop_some_length draws p (goMin 3 p.count) fuel [] [] 0 segs
        (by simp) hsel
    · obtain ⟨seenF, hnd, hrep, hall⟩ :=
        randomLoop_some_inv draws p (goMin 3 p.count) (fun i => i < p.count)
          (fun j => hb j) fuel [] [] 0 segs (by simp) (by simp) (by simp) hsel
      exact ⟨seenF, hnd, fun i hi => ⟨(hall i hi).2, (hall i hi).1⟩, hrep⟩
  constructor
  · constructor
    · rintro ⟨draws, fuel, hb, hs⟩
      obtain ⟨segs, hsel⟩ := Option.isSome_iff_exists.mp hs
      obtain ⟨hlen2, idxs, hnd, hmem, hrep⟩ := hmain draws fuel segs hb hsel
      have hfm : (idxs.filterMap (segAt p)).length = idxs.length :=
        filterMap_segAt_length p idxs (fun i hi => (hmem i hi).2)
      have hle : idxs.length ≤
          (List.range p.count).countP (fun i => (segAt p i).isSome) :=
        nodup_length_le_countP p.count _ idxs hnd
          (fun i hi => ⟨(hmem i hi).1, (hmem i hi).2⟩)
      have : segs.length = idxs.length := by rw [hrep, hfm]
      omega
    · intro hcnt
      refine ⟨fun k => (nonNilIdxs p).getD k 0, goMin 3 p.count,
        fun k => nonNilIdxs_draws_bound p hpos k, ?_⟩
      rw [selectSegments_random_eq _ _ p hpos]
      rw [randomLoop_enough p (goMin 3 p.count)
        (by rw [nonNilIdxs_length]; exact hcnt)]
      simp
  · exact hmain

/-- C10 witness: the one-segment playlist satisfies both hypotheses. -/
theorem selectSegments_random_termination_witness :
    ((∃ draws : Nat → Nat, ∃ fuel : Nat, (∀ k, draws k < mediaA.count) ∧
        (selectSegments draws fuel mediaA CheckModeRandom).isSome = true) ↔
      goMin 3 mediaA.count ≤
        (List.range mediaA.count).countP (fun i => (segAt mediaA i).isSome)) ∧
    (∀ (draws : Nat → Nat) (fuel : Nat) (segs : List MediaSegment),
      (∀ k, draws k < mediaA.count) →
      selectSegments draws fuel mediaA CheckModeRandom = some segs →
      segs.length = goMin 3 mediaA.count ∧
      ∃ idxs : List Nat, idxs.Nodup ∧
        (∀ i ∈ idxs, i < mediaA.count ∧ (segAt mediaA i).isSome = true) ∧
        segs = idxs.filterMap (segAt mediaA)) :=
  selectSegments_random_termination mediaA (by decide) (by decide)

/-! ## C9 — lifecycle Stop -/

/-- C9: Stop never panics and never blocks, always returning a nil error;
on an open stopCh it closes the channel and drains every worker launched by
Start (the wait completes because a worker returns as soon as it observes
the closed channel, and never before); on an already-closed stopCh it
returns nil immediately without touching the state, so a second and any
later call is a safe no-op. -/
theorem stop_idempotent_safe (s : StreamCheckerState) :
    (∃ s2, Stop s = ExecOutcome.ok (s2, none)) ∧
    (s.stopClosed = false →
      Stop s = ExecOutcome.ok ({ stopClosed := true, runningWorkers := 0 }, none)) ∧
    (∀ n, s.stopClosed = false →
      Stop (Start s n) =
        ExecOutcome.ok ({ stopClosed := true, runningWorkers := 0 }, none)) ∧
    (s.stopClosed = true → Stop s = ExecOutcome.ok (s, none)) ∧
    (∀ s2, Stop s = ExecOutcome.ok (s2, none) →
      Stop s2 = ExecOutcome.ok (s2, none)) ∧
    (∀ fuel, 0 < fuel → workerRuns true fuel = true) ∧
    (∀ fuel, workerRuns false fuel = false) := by
  have hworktrue : ∀ fuel, 0 < fuel → workerRuns true fuel = true := by
    intro fuel hf
    cases fuel with
    | zero => omega
    | succ f => simp [workerRuns]
  have hworkfalse : ∀ fuel, workerRuns false fuel = false := by
    intro fuel
    induction fuel with
    | zero => simp [workerRuns]
    | succ f ih => simpa [workerRuns] using ih
  have hopen : s.stopClosed = false →
      Stop s = ExecOutcome.ok ({ stopClosed := true, runningWorkers := 0 }, none) := by
    intro hc
    simp [Stop, hc, closeChannel, wgWait]
  have hclosed : s.stopClosed = true → Stop s = ExecOutcome.ok (s, none) := by
    intro hc
    simp [Stop, hc]
  refine ⟨?_, hopen, ?_, hclosed, ?_, hworktrue, hworkfalse⟩
  · cases hc : s.stopClosed with
    | false => exact ⟨_, hopen hc⟩
    | true => exact ⟨s, hclosed hc⟩
  · intro n hc
    simp [Stop, Start, hc, closeChannel, wgWait]
  · intro s2 h2
    cases hc : s.stopClosed with
    | false =>
      rw [hopen hc] at h2
      replace h2 := (Prod.mk.injEq _ _ _ _).mp (ExecOutcome.ok.inj h2)
      rw [← h2.1]
      simp [Stop]
    | true =>
      rw [hclosed hc] at h2
      replace h2 := (Prod.mk.injEq _ _ _ _).mp (ExecOutcome.ok.inj h2)
      rw [← h2.1]
      simp [Stop, hc]

/-- C9 witness: a checker with an open stopCh and two running workers. -/
theorem stop_idempotent_safe_witness :
    Stop { stopClosed := false, runningWorkers := 2 } =
      ExecOutcome.ok ({ stopClosed := true, runningWorkers := 0 }, none) :=
  (stop_idempotent_safe { stopClosed := false, runningWorkers := 2 }).2.1 rfl

end HLSExporter
